import Mathlib

set_option autoImplicit false

/-
Verification of the CS162 shell (src/hw2/shell.c) and the list-backed word
counter (src/hw1/word_count_l.c).

Shallow embedding conventions:
* A Token Sequence (the external tokenizer interface: length and token-at-index
  accessors) is a `List String`; `tokens_get_token(t, i)` is `t.get? i`
  (null pointer = `none`), `tokens_get_length` is `List.length`.
* The filesystem status query `stat(p, &buf) != -1` is an abstract predicate
  `fs : String → Bool`.
* Environment lookups `getenv("PATH")` / `getenv("HOME")` are `Option String`
  parameters (null = `none`).
* `chdir` success is an abstract predicate `chdirOk : String → Bool`;
  `chdir(NULL)` (a null `char *` argument, as when HOME is unset) fails with
  EFAULT on the target platform, so it is modelled as returning failure.
* Output is modelled as lists of lines: standard output as `List String`,
  standard error as `List ErrOut`.
-/

namespace Cs162

/-- Tag naming which C handler a builtin-table entry's function pointer holds
(`cmd_help`, `cmd_exit`, `cmd_pwd`, `cmd_cd` in shell.c). -/
inductive cmd_fun_t where
  | cmd_help_f
  | cmd_exit_f
  | cmd_pwd_f
  | cmd_cd_f
  deriving DecidableEq, Repr

/-- Model of `struct fun_desc` from shell.c: a handler, the command name it is
registered under, and its help text. -/
structure fun_desc where
  fn : cmd_fun_t
  cmd : String
  doc : String
  deriving DecidableEq, Repr

/-- Model of `cmd_table` from shell.c, in source order. -/
def cmd_table : List fun_desc :=
  [⟨cmd_fun_t.cmd_help_f, "?", "show this help menu"⟩,
   ⟨cmd_fun_t.cmd_exit_f, "exit", "exit the command shell"⟩,
   ⟨cmd_fun_t.cmd_pwd_f, "pwd", "print working directory"⟩,
   ⟨cmd_fun_t.cmd_cd_f, "cd", "change working directory"⟩]

/-- Model of the loop guard `cmd && (strcmp(cmd_table[i].cmd, cmd) == 0)` in
`lookup`: a null command name matches no entry. -/
def null_safe_eq (cmd : Option String) (entry : String) : Bool :=
  match cmd with
  | none => false
  | some s => entry == s

/-- Loop of `lookup` in shell.c, walking the table with the running index `i`
and returning the first matching index, or -1 when the table is exhausted. -/
def lookup_from (cmd : Option String) : List fun_desc → Int → Int
  | [], _ => -1
  | d :: ds, i => if null_safe_eq cmd d.cmd then i else lookup_from cmd ds (i + 1)

/-- Model of `lookup` from shell.c: first matching index into `cmd_table`,
or -1 when the name is null or matches no entry. -/
def lookup (cmd : Option String) : Int :=
  lookup_from cmd cmd_table 0

/-- Diagnostic line written to standard error. `perrorMsg ctx` stands for the
line `perror(ctx)` prints: the context, a colon, and the system error
description for the current errno. -/
inductive ErrOut where
  | usageError (msg : String)
  | perrorMsg (context : String)
  | notFoundMsg (cmd : String)
  deriving DecidableEq, Repr

/-- Model of the C `chdir` call as used by `cmd_cd`: the argument may be a
null pointer (`getenv("HOME")` when HOME is unset), in which case the call
fails (EFAULT) and returns -1; otherwise success is given by `ok`. -/
def chdir_model (ok : String → Bool) : Option String → Bool
  | none => false
  | some p => ok p

/-- Outcome of one `cmd_cd` call: the returned int, the directory the process
changed into (`none` when the working directory is unchanged), and the
standard-error output. -/
structure CdResult where
  ret : Int
  newCwd : Option String
  err : List ErrOut
  deriving DecidableEq, Repr

/-- Model of `cmd_cd` from shell.c. With more than 2 tokens it prints a usage
error; with exactly 2 it calls `chdir(tokens_get_token(tokens, 1))`; otherwise
it calls `chdir(getenv("HOME"))`. A failed `chdir` is reported via
`perror("cd")`. Every path returns 0. -/
def cmd_cd (home : Option String) (chdirOk : String → Bool)
    (tokens : List String) : CdResult :=
  let argc := tokens.length
  if argc > 2 then
    { ret := 0, newCwd := none, err := [ErrOut.usageError "cd: too many arguments"] }
  else if argc = 2 then
    if chdir_model chdirOk (tokens.get? 1) then
      { ret := 0, newCwd := tokens.get? 1, err := [] }
    else
      { ret := 0, newCwd := none, err := [ErrOut.perrorMsg "cd"] }
  else
    if chdir_model chdirOk home then
      { ret := 0, newCwd := home, err := [] }
    else
      { ret := 0, newCwd := none, err := [ErrOut.perrorMsg "cd"] }

/-- Outcome of one `cmd_pwd` call: the returned int, the standard-output
lines, and the standard-error output. -/
structure PwdResult where
  ret : Int
  out : List String
  err : List ErrOut
  deriving DecidableEq, Repr

/-- Model of `cmd_pwd` from shell.c. The `getcwd(NULL, 0)` result is the
parameter (`none` = the call failed and returned a null pointer). The code
performs no error check: it passes the result straight to
`printf("%s\n", cwd)` — with a null pointer glibc prints `(null)` — frees it,
and returns 0. Nothing is ever written to standard error. -/
def cmd_pwd (getcwd_result : Option String) : PwdResult :=
  match getcwd_result with
  | some cwd => { ret := 0, out := [cwd], err := [] }
  | none => { ret := 0, out := ["(null)"], err := [] }

/-- Loop body of `cmd_help` from shell.c: one `"%s - %s\n"` line per table
entry, in table order. -/
def help_lines : List fun_desc → List String
  | [] => []
  | d :: ds => (d.cmd ++ " - " ++ d.doc) :: help_lines ds

/-- Model of `cmd_help` from shell.c: prints every table entry's name and doc
text and returns 1. Result: (returned int, standard-output lines). -/
def cmd_help (_tokens : List String) : Int × List String :=
  (1, help_lines cmd_table)

/-- Events a builtin can perform, in order: destroying the current Token
Sequence (`tokens_destroy`), terminating the whole process (`exit(status)`),
or returning a value to the caller in `main`. -/
inductive ExitEvent where
  | destroyTokens
  | processExit (status : Int)
  | returnToCaller (value : Int)
  deriving DecidableEq, Repr

/-- Model of `cmd_exit` from shell.c as its event trace: it calls
`tokens_destroy(tokens)` and then `exit(0)`. The trace ends at the process
exit, so no `returnToCaller` event ever occurs. -/
def cmd_exit (_tokens : List String) : List ExitEvent :=
  [ExitEvent.destroyTokens, ExitEvent.processExit 0]

/-- Segments of a character list cut at every ':' (empty segments kept).
The catch-all branch of the inner match is unreachable: the function never
returns the empty list. -/
def splitColonChars : List Char → List (List Char)
  | [] => [[]]
  | c :: cs =>
    if c = ':' then [] :: splitColonChars cs
    else
      match splitColonChars cs with
      | [] => [[c]]
      | g :: gs => (c :: g) :: gs

/-- Model of the `strtok(path, ":")` loop: `strtok` treats runs of the
delimiter as one separator and skips leading/trailing delimiters, so the
token list is the colon-split with empty segments dropped. -/
def strtokColon (s : String) : List String :=
  ((splitColonChars s.data).map (fun g => String.mk g)).filter (fun t => t ≠ "")

/-- Loop body of `search_path` from shell.c: for each candidate directory in
order, build `<dir>/<command>` and return the first pathname whose `stat`
succeeds. -/
def firstCandidate (fs : String → Bool) (command : String) :
    List String → Option String
  | [] => none
  | dir :: rest =>
    let pathname := dir ++ "/" ++ command
    if fs pathname then some pathname else firstCandidate fs command rest

/-- Model of `search_path` from shell.c: null PATH fails immediately;
otherwise the colon-separated directories are tried left to right and the
first `<dir>/<command>` whose `stat` succeeds is returned. -/
def search_path (fs : String → Bool) (path_env : Option String)
    (command : String) : Option String :=
  match path_env with
  | none => none
  | some p => firstCandidate fs command (strtokColon p)

/-- Argument vector the child builds before `execv`: `args[i]` is token `i`
for `i < length`, and `args[length]` is the null marker. -/
def build_argv (tokens : List String) : List (Option String) :=
  tokens.map some ++ [none]

/-- Action `main`'s dispatch chain selects for one parsed line.
`builtin i` runs `cmd_table[i].fun(tokens)` in the shell process (no child).
`spawnDirect` / `spawnResolved` fork a child that calls `execv prog argv`
while the parent (`parentWaits`) blocks in `waitpid` on that child.
`blank` is the empty-line no-op; `notFound cmd` prints the
command-not-found diagnostic. -/
inductive DispatchAction where
  | builtin (fundex : Nat)
  | spawnDirect (prog : String) (argv : List (Option String)) (parentWaits : Bool)
  | spawnResolved (prog : String) (argv : List (Option String)) (parentWaits : Bool)
  | blank
  | notFound (cmd : String)
  deriving DecidableEq, Repr

/-- Model of the per-line dispatch chain of `main` in shell.c, in its strict
source order: builtin lookup on token 0; else direct execution when the line
is non-empty and `stat(token 0)` succeeds; else PATH resolution via
`search_path`; else nothing for an empty line; else command-not-found. -/
def dispatch (fs : String → Bool) (path_env : Option String)
    (tokens : List String) : DispatchAction :=
  let fundex := lookup tokens.head?
  if 0 ≤ fundex then
    DispatchAction.builtin fundex.toNat
  else if 0 < tokens.length ∧ fs (tokens.headD "") = true then
    DispatchAction.spawnDirect (tokens.headD "") (build_argv tokens) true
  else
    match
      (if 0 < tokens.length then search_path fs path_env (tokens.headD "")
       else none) with
    | some pathname => DispatchAction.spawnResolved pathname (build_argv tokens) true
    | none =>
      if tokens.length = 0 then DispatchAction.blank
      else DispatchAction.notFound (tokens.headD "")

/-- Model of `word_count_t` from word_count.h: a word and its count. -/
structure word_count_t where
  word : String
  count : Nat
  deriving DecidableEq, Repr

/-- Model of `init_words` from word_count_l.c: `list_init` yields the empty
list. -/
def init_words : List word_count_t := []

/-- Model of `find_word` from word_count_l.c: the first entry whose word
compares equal to `w`, or null. -/
def find_word : List word_count_t → String → Option word_count_t
  | [], _ => none
  | wc :: rest, w => if wc.word = w then some wc else find_word rest w

/-- Effect of `wc->count++` on the entry `find_word` returned: increment the
count of the first entry holding `w`, leaving the rest of the list intact. -/
def incr_first : List word_count_t → String → List word_count_t
  | [], _ => []
  | wc :: rest, w =>
    if wc.word = w then { wc with count := wc.count + 1 } :: rest
    else wc :: incr_first rest w

/-- Model of `add_word` from word_count_l.c (the `malloc` is assumed to
succeed; its failure branch adds nothing and is a spec-acknowledged gap).
When `find_word` locates the word the existing entry's count is incremented;
otherwise a fresh entry with count 1 is pushed at the back. -/
def add_word (wclist : List word_count_t) (word : String) : List word_count_t :=
  match find_word wclist word with
  | some _ => incr_first wclist word
  | none => wclist ++ [⟨word, 1⟩]

/-! Helper lemmas shared by the claim theorems. -/

/-- Helper: a non-null first token fixes `headD` and forces a positive length. -/
theorem head_facts {tokens : List String} {a : String}
    (h : tokens.head? = some a) : tokens.headD "" = a ∧ 0 < tokens.length := by
  cases tokens with
  | nil => simp at h
  | cons b l =>
    simp only [List.head?_cons, Option.some.injEq] at h
    subst h
    exact ⟨rfl, Nat.succ_pos _⟩

/-- Helper: a name outside the builtin table makes `lookup` return -1. -/
theorem lookup_not_builtin {s : String}
    (h : s ∉ cmd_table.map fun_desc.cmd) : lookup (some s) = -1 := by
  simp only [cmd_table, List.map, List.mem_cons, List.not_mem_nil, or_false,
    not_or] at h
  obtain ⟨h1, h2, h3, h4⟩ := h
  simp [lookup, cmd_table, lookup_from, null_safe_eq, beq_iff_eq,
    Ne.symm h1, Ne.symm h2, Ne.symm h3, Ne.symm h4]

/-- Helper: a non-negative `lookup` result selects the builtin branch of the
dispatch chain. -/
theorem dispatch_builtin_of_lookup (fs : String → Bool) (pe : Option String)
    (tokens : List String) (i : Int) (h : lookup tokens.head? = i)
    (h0 : 0 ≤ i) : dispatch fs pe tokens = DispatchAction.builtin i.toNat := by
  simp only [dispatch, h]
  rw [if_pos h0]

/-- Helper: a negative `lookup` result means no builtin branch is ever the
dispatch outcome. -/
theorem dispatch_not_builtin_of_lookup_neg (fs : String → Bool)
    (pe : Option String) (tokens : List String)
    (h : lookup tokens.head? = -1) (i : Nat) :
    dispatch fs pe tokens ≠ DispatchAction.builtin i := by
  simp only [dispatch, h]
  rw [if_neg (by norm_num)]
  split
  · simp
  · split
    · simp
    · split <;> simp

/-! Claim theorems. -/

/-- C5: for every token sequence, `cmd_exit` destroys the Token Sequence and
then terminates the process with status 0: its event trace is exactly
destroy-then-exit, the destroy comes first, the trace ends at the process
exit, and no return to the caller ever occurs. -/
theorem c5_exit_destroys_tokens_then_terminates (tokens : List String) :
    cmd_exit tokens = [ExitEvent.destroyTokens, ExitEvent.processExit 0] ∧
    (cmd_exit tokens).head? = some ExitEvent.destroyTokens ∧
    (cmd_exit tokens).getLast? = some (ExitEvent.processExit 0) ∧
    ∀ v, ExitEvent.returnToCaller v ∉ cmd_exit tokens := by
  refine ⟨rfl, rfl, rfl, ?_⟩
  intro v h
  simp [cmd_exit] at h

/-- C6: builtin lookup with a null command name returns -1 (no builtin
index) and never crashes: the null check guards every string comparison, so
over any table and any running index the walk reaches the end and yields -1
without comparing the null name against any entry. -/
theorem c6_lookup_null_returns_none :
    lookup none = -1 ∧
    ∀ (t : List fun_desc) (i : Int), lookup_from none t i = -1 := by
  refine ⟨rfl, ?_⟩
  intro t i
  induction t generalizing i with
  | nil => rfl
  | cons d ds ih => simp [lookup_from, null_safe_eq, ih]

/-- C7: a bare `cd` when HOME is absent: the null HOME makes the `chdir`
call fail rather than crash, the failure is reported once via `perror("cd")`,
the working directory is unchanged and the builtin returns 0 to the loop,
which continues to the next prompt. -/
theorem c7_cd_home_absent_not_fatal (chdirOk : String → Bool) :
    chdir_model chdirOk none = false ∧
    cmd_cd none chdirOk ["cd"] =
      { ret := 0, newCwd := none, err := [ErrOut.perrorMsg "cd"] } :=
  ⟨rfl, rfl⟩

/-- C8 counterexample: at the failing input (the `getcwd` query fails),
`cmd_pwd` writes nothing at all to standard error, refuting the claim that
the failure is reported to standard error as a formatted OS error message. -/
theorem c8_counterexample_pwd_failure_silent :
    (cmd_pwd none).err = [] ∧ ¬ ∃ m, m ∈ (cmd_pwd none).err := by
  refine ⟨rfl, ?_⟩
  rintro ⟨m, hm⟩
  simp [cmd_pwd] at hm

/-- C8 amended: `cmd_pwd` returns 0 and writes nothing to standard error for
every `getcwd` outcome; on failure the null result goes straight to `printf`
on standard output (glibc renders it as `(null)`), and on success the working
directory is printed to standard output. -/
theorem c8_amended_pwd_never_reports_stderr (g : Option String) :
    (cmd_pwd g).ret = 0 ∧ (cmd_pwd g).err = [] ∧
    (g = none → (cmd_pwd g).out = ["(null)"]) ∧
    ∀ cwd, g = some cwd → (cmd_pwd g).out = [cwd] := by
  cases g <;> simp [cmd_pwd]

/-- Witness for the amended C8 theorem at the failing input `getcwd = none`. -/
theorem c8_amended_pwd_never_reports_stderr_witness :
    (cmd_pwd none).ret = 0 ∧ (cmd_pwd none).err = [] ∧
    (cmd_pwd none).out = ["(null)"] :=
  ⟨(c8_amended_pwd_never_reports_stderr none).1,
   (c8_amended_pwd_never_reports_stderr none).2.1,
   (c8_amended_pwd_never_reports_stderr none).2.2.1 rfl⟩

/-- C9: the help builtin is registered under "?", not "help": `lookup`
misses "help" so such a line never dispatches to a builtin and falls through
to external-command dispatch, while "?" maps to table index 0 — the entry
holding the help handler — and `cmd_help` prints each table entry's name and
doc text and returns 1. -/
theorem c9_help_is_question_mark :
    lookup (some "help") = -1 ∧
    lookup (some "?") = 0 ∧
    cmd_table.get? 0 =
      some ⟨cmd_fun_t.cmd_help_f, "?", "show this help menu"⟩ ∧
    (∀ fs pe tokens, tokens.head? = some "help" →
      ∀ i, dispatch fs pe tokens ≠ DispatchAction.builtin i) ∧
    (∀ fs pe tokens, tokens.head? = some "?" →
      dispatch fs pe tokens = DispatchAction.builtin 0) ∧
    ∀ t, cmd_help t =
      (1, ["? - show this help menu", "exit - exit the command shell",
           "pwd - print working directory", "cd - change working directory"]) := by
  refine ⟨by decide, by decide, rfl, ?_, ?_, fun t => rfl⟩
  · intro fs pe tokens htok i
    exact dispatch_not_builtin_of_lookup_neg fs pe tokens
      (by rw [htok]; decide) i
  · intro fs pe tokens htok
    exact dispatch_builtin_of_lookup fs pe tokens 0 (by rw [htok]; decide)
      (by decide)

/-- Witness for C9 at the concrete lines `help` and `?`. -/
theorem c9_help_is_question_mark_witness :
    ((["help"] : List String).head? = some "help" ∧
      dispatch (fun _ => false) none ["help"] ≠ DispatchAction.builtin 0) ∧
    ((["?"] : List String).head? = some "?" ∧
      dispatch (fun _ => false) none ["?"] = DispatchAction.builtin 0) :=
  ⟨⟨rfl, c9_help_is_question_mark.2.2.2.1 (fun _ => false) none ["help"] rfl 0⟩,
   ⟨rfl, c9_help_is_question_mark.2.2.2.2.1 (fun _ => false) none ["?"] rfl⟩⟩

/-- Helper: a builtin dispatch action is never a spawn action. -/
theorem builtin_ne_spawn (i : Nat) (prog : String) (argv : List (Option String))
    (w : Bool) :
    DispatchAction.builtin i ≠ DispatchAction.spawnDirect prog argv w ∧
    DispatchAction.builtin i ≠ DispatchAction.spawnResolved prog argv w :=
  ⟨(fun h => nomatch h), (fun h => nomatch h)⟩

/-- C1: a line whose first token exactly matches a builtin name dispatches to
that builtin's table entry, whatever the filesystem predicate and the PATH
value (so the stat check and the Path Resolver are skipped), and the dispatch
outcome is never a child-spawning action. -/
theorem c1_builtin_short_circuits (fs : String → Bool) (pe : Option String)
    (tokens : List String) (name : String)
    (htok : tokens.head? = some name)
    (hmem : name ∈ cmd_table.map fun_desc.cmd) :
    ∃ i, ∃ h : i < cmd_table.length,
      dispatch fs pe tokens = DispatchAction.builtin i ∧
      (cmd_table.get ⟨i, h⟩).cmd = name ∧
      ∀ prog argv w,
        dispatch fs pe tokens ≠ DispatchAction.spawnDirect prog argv w ∧
        dispatch fs pe tokens ≠ DispatchAction.spawnResolved prog argv w := by
  have hcases : name = "?" ∨ name = "exit" ∨ name = "pwd" ∨ name = "cd" := by
    simpa [cmd_table] using hmem
  rcases hcases with h | h | h | h <;> subst h
  · have hd := dispatch_builtin_of_lookup fs pe tokens 0 (by rw [htok]; decide)
      (by decide)
    exact ⟨0, by decide, hd, by decide,
      fun prog argv w => by rw [hd]; exact builtin_ne_spawn 0 prog argv w⟩
  · have hd := dispatch_builtin_of_lookup fs pe tokens 1 (by rw [htok]; decide)
      (by decide)
    exact ⟨1, by decide, hd, by decide,
      fun prog argv w => by rw [hd]; exact builtin_ne_spawn 1 prog argv w⟩
  · have hd := dispatch_builtin_of_lookup fs pe tokens 2 (by rw [htok]; decide)
      (by decide)
    exact ⟨2, by decide, hd, by decide,
      fun prog argv w => by rw [hd]; exact builtin_ne_spawn 2 prog argv w⟩
  · have hd := dispatch_builtin_of_lookup fs pe tokens 3 (by rw [htok]; decide)
      (by decide)
    exact ⟨3, by decide, hd, by decide,
      fun prog argv w => by rw [hd]; exact builtin_ne_spawn 3 prog argv w⟩

/-- Witness for C1 at the concrete line `pwd`. -/
theorem c1_builtin_short_circuits_witness :
    ∃ i, ∃ h : i < cmd_table.length,
      dispatch (fun _ => false) none ["pwd"] = DispatchAction.builtin i ∧
      (cmd_table.get ⟨i, h⟩).cmd = "pwd" ∧
      ∀ prog argv w,
        dispatch (fun _ => false) none ["pwd"] ≠
          DispatchAction.spawnDirect prog argv w ∧
        dispatch (fun _ => false) none ["pwd"] ≠
          DispatchAction.spawnResolved prog argv w :=
  c1_builtin_short_circuits (fun _ => false) none ["pwd"] "pwd" rfl (by decide)

/-- Helper: with a non-builtin first token whose stat succeeds, the dispatch
chain takes the direct-execution branch. -/
theorem dispatch_direct (fs : String → Bool) (pe : Option String)
    (t0 : String) (rest : List String)
    (hlk : lookup (some t0) = -1) (hfs : fs t0 = true) :
    dispatch fs pe (t0 :: rest) =
      DispatchAction.spawnDirect t0 (build_argv (t0 :: rest)) true := by
  simp only [dispatch, List.head?_cons, hlk]
  have hc : 0 < (t0 :: rest).length ∧ fs ((t0 :: rest).headD "") = true :=
    ⟨Nat.succ_pos _, hfs⟩
  rw [if_neg (by norm_num), if_pos hc]
  rfl

/-- C2: a line whose first token is not a builtin name but passes the stat
check is executed directly, for every PATH value (the Path Resolver is never
consulted): the child program is the first token, the argument vector is the
full token sequence terminated by the null marker, and the parent waits on
that child. -/
theorem c2_direct_execution (fs : String → Bool) (pe : Option String)
    (tokens : List String) (tok0 : String)
    (htok : tokens.head? = some tok0)
    (hnb : tok0 ∉ cmd_table.map fun_desc.cmd)
    (hfs : fs tok0 = true) :
    dispatch fs pe tokens =
      DispatchAction.spawnDirect tok0 (tokens.map some ++ [none]) true := by
  cases tokens with
  | nil => simp at htok
  | cons a rest =>
    simp only [List.head?_cons, Option.some.injEq] at htok
    subst htok
    exact dispatch_direct fs pe a rest (lookup_not_builtin hnb) hfs

/-- Witness for C2 at the concrete line `/bin/echo hi` with a filesystem in
which only `/bin/echo` exists. -/
theorem c2_direct_execution_witness :
    (["/bin/echo", "hi"] : List String).head? = some "/bin/echo" ∧
    "/bin/echo" ∉ cmd_table.map fun_desc.cmd ∧
    dispatch (fun s => s == "/bin/echo") none ["/bin/echo", "hi"] =
      DispatchAction.spawnDirect "/bin/echo"
        [some "/bin/echo", some "hi", none] true :=
  ⟨rfl, by decide,
   c2_direct_execution (fun s => s == "/bin/echo") none ["/bin/echo", "hi"]
     "/bin/echo" rfl (by decide) rfl⟩

/-- Helper: the candidate loop of `search_path` returns `<dir>/<command>`
for the leftmost directory whose joined pathname passes the status query. -/
theorem firstCandidate_eq_find (fs : String → Bool) (command : String)
    (dirs : List String) :
    firstCandidate fs command dirs =
      (dirs.find? (fun d => fs (d ++ "/" ++ command))).map
        (fun d => d ++ "/" ++ command) := by
  induction dirs with
  | nil => rfl
  | cons d rest ih =>
    simp only [firstCandidate]
    by_cases h : fs (d ++ "/" ++ command) = true
    · rw [if_pos h,
        @List.find?_cons_of_pos String (fun x => fs (x ++ "/" ++ command)) d rest h]
      rfl
    · rw [if_neg h,
        @List.find?_cons_of_neg String (fun x => fs (x ++ "/" ++ command)) d rest h,
        ih]

/-- C3: `search_path` fails when PATH is unset or empty, and otherwise tries
the colon-split directory sequence left to right, returning `<dir>/<command>`
for the leftmost directory in which the status query succeeds — existence via
the predicate `fs` is the only criterion — and `none` when no candidate
matches. -/
theorem c3_search_path_leftmost_wins (fs : String → Bool) (command : String) :
    search_path fs none command = none ∧
    search_path fs (some "") command = none ∧
    ∀ p, search_path fs (some p) command =
      ((strtokColon p).find? (fun d => fs (d ++ "/" ++ command))).map
        (fun d => d ++ "/" ++ command) := by
  refine ⟨rfl, ?_, fun p => firstCandidate_eq_find fs command (strtokColon p)⟩
  show firstCandidate fs command (strtokColon "") = none
  have h : strtokColon "" = [] := by decide
  rw [h]
  rfl

/-- C4: `cmd_cd` returns 0 on every path; with more than two tokens it
prints the usage error and leaves the working directory unchanged; with
exactly two it attempts `chdir` to the second token, reporting the OS error
via `perror("cd")` on failure; with at most one it attempts `chdir` to the
HOME value under the same success/failure reporting. -/
theorem c4_cmd_cd_cases (home : Option String) (chdirOk : String → Bool)
    (tokens : List String) :
    (cmd_cd home chdirOk tokens).ret = 0 ∧
    (2 < tokens.length →
      cmd_cd home chdirOk tokens =
        { ret := 0, newCwd := none,
          err := [ErrOut.usageError "cd: too many arguments"] }) ∧
    (tokens.length = 2 →
      cmd_cd home chdirOk tokens =
        if chdir_model chdirOk (tokens.get? 1) then
          { ret := 0, newCwd := tokens.get? 1, err := [] }
        else { ret := 0, newCwd := none, err := [ErrOut.perrorMsg "cd"] }) ∧
    (tokens.length ≤ 1 →
      cmd_cd home chdirOk tokens =
        if chdir_model chdirOk home then
          { ret := 0, newCwd := home, err := [] }
        else { ret := 0, newCwd := none, err := [ErrOut.perrorMsg "cd"] }) := by
  refine ⟨?_, ?_, ?_, ?_⟩
  · simp only [cmd_cd]
    split
    · rfl
    · split <;> (split <;> rfl)
  · intro h
    simp only [cmd_cd]
    rw [if_pos h]
  · intro h
    simp only [cmd_cd]
    rw [if_neg (by omega), if_pos h]
  · intro h
    simp only [cmd_cd]
    rw [if_neg (by omega), if_neg (by omega)]

/-- Witness for C4 at concrete token sequences of each length class. -/
theorem c4_cmd_cd_cases_witness :
    (cmd_cd (some "/home/u") (fun s => s == "/home/u") ["cd", "a", "b"]).ret = 0 ∧
    cmd_cd (some "/home/u") (fun s => s == "/home/u") ["cd", "a", "b"] =
      { ret := 0, newCwd := none,
        err := [ErrOut.usageError "cd: too many arguments"] } ∧
    cmd_cd (some "/home/u") (fun s => s == "/d") ["cd", "/d"] =
      (if chdir_model (fun s => s == "/d") ((["cd", "/d"] : List String).get? 1) then
        { ret := 0, newCwd := (["cd", "/d"] : List String).get? 1, err := [] }
      else { ret := 0, newCwd := none, err := [ErrOut.perrorMsg "cd"] }) ∧
    cmd_cd (some "/home/u") (fun s => s == "/home/u") ["cd"] =
      (if chdir_model (fun s => s == "/home/u") (some "/home/u") then
        { ret := 0, newCwd := some "/home/u", err := [] }
      else { ret := 0, newCwd := none, err := [ErrOut.perrorMsg "cd"] }) :=
  ⟨(c4_cmd_cd_cases (some "/home/u") (fun s => s == "/home/u") ["cd", "a", "b"]).1,
   (c4_cmd_cd_cases (some "/home/u") (fun s => s == "/home/u") ["cd", "a", "b"]).2.1
     (by decide),
   (c4_cmd_cd_cases (some "/home/u") (fun s => s == "/d") ["cd", "/d"]).2.2.1
     (by decide),
   (c4_cmd_cd_cases (some "/home/u") (fun s => s == "/home/u") ["cd"]).2.2.2
     (by decide)⟩

/-- Helper: equation of `add_word` when `find_word` hits. -/
theorem add_word_found {l : List word_count_t} {w : String} {wc : word_count_t}
    (hf : find_word l w = some wc) : add_word l w = incr_first l w := by
  unfold add_word
  rw [hf]

/-- Helper: equation of `add_word` when `find_word` misses. -/
theorem add_word_missing {l : List word_count_t} {w : String}
    (hf : find_word l w = none) : add_word l w = l ++ [⟨w, 1⟩] := by
  unfold add_word
  rw [hf]

/-- Helper: `find_word` misses exactly when no entry holds the word. -/
theorem find_word_eq_none_iff (l : List word_count_t) (w : String) :
    find_word l w = none ↔ w ∉ l.map word_count_t.word := by
  induction l with
  | nil => simp [find_word]
  | cons wc rest ih =>
    by_cases h : wc.word = w
    · simp [find_word, h]
    · simp [find_word, h, ih, Ne.symm h]

/-- Helper: incrementing a count leaves the word column unchanged. -/
theorem incr_first_map_word (l : List word_count_t) (w : String) :
    (incr_first l w).map word_count_t.word = l.map word_count_t.word := by
  induction l with
  | nil => rfl
  | cons wc rest ih =>
    by_cases h : wc.word = w
    · simp [incr_first, h]
    · simp [incr_first, h, ih]

/-- Helper: one `add_word` call preserves distinctness of the word column. -/
theorem add_word_nodup (l : List word_count_t) (w : String)
    (h : (l.map word_count_t.word).Nodup) :
    ((add_word l w).map word_count_t.word).Nodup := by
  cases hf : find_word l w with
  | some wc =>
    rw [add_word_found hf, incr_first_map_word]
    exact h
  | none =>
    rw [add_word_missing hf]
    have hw : w ∉ l.map word_count_t.word := (find_word_eq_none_iff l w).mp hf
    simp [List.nodup_append, h, hw]

/-- C10: every word-count list built from `init_words` by a sequence of
`add_word` calls has at most one entry per distinct word string — the word
column is duplicate-free, because a found word only has its count bumped and
a missing word appends exactly one fresh entry. -/
theorem c10_add_word_never_duplicates (ws : List String) :
    ((ws.foldl add_word init_words).map word_count_t.word).Nodup := by
  have h : ∀ l : List word_count_t, (l.map word_count_t.word).Nodup →
      ((ws.foldl add_word l).map word_count_t.word).Nodup := by
    induction ws with
    | nil => intro l hl; simpa using hl
    | cons w rest ih =>
      intro l hl
      simp only [List.foldl_cons]
      exact ih (add_word l w) (add_word_nodup l w hl)
  exact h init_words (by simp [init_words])

end Cs162
